import Mathlib

/-!
# Verification of the tsvToMYSQLTiDB streaming bulk loader

Shallow embedding of the two Go source variants (`tsvToMYSQLTiDB.go` and the
unnamed variant `part_000`) of the admission-controlled concurrent insertion
pipeline, together with proofs of the specified properties.

The embedding translates:
* `repalceNULLByDEFAULT` — the argument-list conversion mapping the textual
  sentinel `NULL` to a null value;
* `parseColumns` — the statement builder (both the plain variant and the
  variant with the `enable_update` upsert clause);
* the delimiter handling of `parseSysArgs` (`[]rune(*delimiter)[0]`);
* the worker `insert` (prepare / execute / outcome reporting) as a function of
  the success of each store call;
* the sequence-number assignment of the two `main` loops and the sign encoding
  of outcomes;
* the read loop of `main` (header, data rows, EOF, parse errors);
* the connection-controller goroutine (`startConnectionController`) both as a
  drained-loop function and, jointly with the producer and the workers, as a
  labelled transition system whose reachable-state invariants bound the
  in-flight count and tie token releases to accounted outcomes.
-/

namespace TsvLoader

/-! ## Argument conversion: `repalceNULLByDEFAULT` -/

/-- A positional SQL argument: either a null value or a text value.  Embeds the
`interface{}` slots built by `repalceNULLByDEFAULT` (`nil` vs. the field). -/
inductive SqlArg where
  | null : SqlArg
  | str : String → SqlArg
  deriving DecidableEq, Repr

/-- Embedding of `repalceNULLByDEFAULT` (identical in both variants): every
field equal to the literal text `NULL` becomes a null argument, every other
field is passed through unchanged. -/
def repalceNULLByDEFAULT (s : List String) : List SqlArg :=
  s.map fun v => if v = "NULL" then SqlArg.null else SqlArg.str v

/-! ## Delimiter parsing: `parseSysArgs` -/

/-- Embedding of the delimiter handling in `parseSysArgs`:
`DELIMITER = []rune(*delimiter)[0]` reads the first character of the option
value.  Indexing an empty rune slice panics in Go; the panic is modelled as
`none`. -/
def delimiterOfOption (s : String) : Option Char :=
  s.data.head?

/-! ## Statement builder: `parseColumns` -/

/-- Loop of `parseColumns` in `tsvToMYSQLTiDB.go`: walks the header columns
carrying the query and placeholder accumulators; the boolean is the `i == 0`
test of the Go range loop. -/
def parseColumnsLoop : List String → Bool → String → String → String × String
  | [], _, q, p => (q, p)
  | c :: rest, true, q, p =>
      parseColumnsLoop rest false (q ++ c) (p ++ "?")
  | c :: rest, false, q, p =>
      parseColumnsLoop rest false (q ++ ", " ++ c) (p ++ ", ?")

/-- Embedding of `parseColumns` from `tsvToMYSQLTiDB.go` (no upsert option),
with the global `TABLENAME` passed explicitly. -/
def parseColumns (table : String) (columns : List String) : String :=
  let qp := parseColumnsLoop columns true ("INSERT INTO " ++ table ++ " (") "VALUES ("
  qp.1 ++ ") " ++ (qp.2 ++ ")")

/-- Loop of `parseColumns` in the `part_000` variant: additionally accumulates
the `ON DUPLICATE KEY UPDATE` clause. -/
def parseColumnsLoopUpd :
    List String → Bool → String → String → String → String × String × String
  | [], _, q, p, u => (q, p, u)
  | c :: rest, true, q, p, u =>
      parseColumnsLoopUpd rest false (q ++ c) (p ++ "?")
        (u ++ (c ++ "=VALUES(" ++ c ++ ")"))
  | c :: rest, false, q, p, u =>
      parseColumnsLoopUpd rest false (q ++ ", " ++ c) (p ++ ", ?")
        (u ++ (", " ++ c ++ "=VALUES(" ++ c ++ ")"))

/-- Embedding of `parseColumns` from the `part_000` variant, with the globals
`TABLENAME` and `ON_DUP_KEYS_UPDATE` passed explicitly. -/
def parseColumnsUpd (table : String) (onDupKeysUpdate : Bool)
    (columns : List String) : String :=
  let qpu := parseColumnsLoopUpd columns true
    ("INSERT INTO " ++ table ++ " (") "VALUES (" "ON DUPLICATE KEY UPDATE "
  let base := qpu.1 ++ ") " ++ (qpu.2.1 ++ ")")
  if onDupKeysUpdate then base ++ qpu.2.2 else base

/-- Spec-side description of the column list: every header column named in
order, separated by `, `. -/
def colList : List String → String
  | [] => ""
  | [c] => c
  | c :: rest => c ++ ", " ++ colList rest

/-- Spec-side description of the placeholder list: one positional `?` per
header column. -/
def placeholderList : List String → String
  | [] => ""
  | [_] => "?"
  | _ :: rest => "?" ++ ", " ++ placeholderList rest

/-- Spec-side description of the update clause body: for every header column
`c`, the assignment `c=VALUES(c)`, in header order. -/
def updateList : List String → String
  | [] => ""
  | [c] => c ++ "=VALUES(" ++ c ++ ")"
  | c :: rest => (c ++ "=VALUES(" ++ c ++ ")") ++ ", " ++ updateList rest

/-- Tail of the column list as the loop accumulates it: each non-first column
is appended as `, c`. -/
def sepCols : List String → String
  | [] => ""
  | c :: rest => ", " ++ c ++ sepCols rest

/-- Tail of the placeholder list as the loop accumulates it: each non-first
column appends `, ?`. -/
def sepPh : List String → String
  | [] => ""
  | _ :: rest => ", ?" ++ sepPh rest

/-- Tail of the update clause as the loop accumulates it: each non-first
column appends `, c=VALUES(c)`. -/
def sepUpd : List String → String
  | [] => ""
  | c :: rest => ", " ++ c ++ "=VALUES(" ++ c ++ ")" ++ sepUpd rest

/-! ## Worker: `insert` -/

/-- Observable effect of one `insert` worker: either the process is aborted by
`log.Fatal`, or an outcome value is sent on the callback channel. -/
inductive WorkerEffect where
  | fatalAbort : WorkerEffect
  | sent : Int → WorkerEffect
  deriving DecidableEq, Repr

/-- Embedding of the worker `insert` (both variants agree on the observable
effect): `db.Prepare` failing hits `log.Fatal`; `stmt.Exec` failing logs the
error with the sequence number and sends the negated id; success sends the id.
The boolean arguments record whether the corresponding store call succeeded. -/
def insertWorker (id : Int) (prepareOk : Bool) (execOk : Bool) : WorkerEffect :=
  if prepareOk = false then WorkerEffect.fatalAbort
  else if execOk then WorkerEffect.sent id
  else WorkerEffect.sent (-id)

/-! ## Sequence numbers and outcome encoding -/

/-- Sequence number of the k-th dispatched data record (0-based) in
`tsvToMYSQLTiDB.go`: `id` starts at 1 and is incremented before each dispatch,
so the k-th task gets id `k + 2`. -/
def idOfTaskV1 (k : Nat) : Int := (k : Int) + 2

/-- Sequence number of the k-th dispatched data record (0-based) in the
`part_000` variant: `id` starts at -1 and `id++` runs before each dispatch, so
the k-th task gets id `k`. -/
def idOfTaskV2 (k : Nat) : Int := (k : Int)

/-- Outcome value sent on the callback channel: the sequence number, negated
on failure (`callback <- -id` resp. `id = -id`). -/
def outcomeValue (id : Int) (ok : Bool) : Int :=
  if ok then id else -id

/-- The connection controller's failure test: `if (id < 0) { fails += 1 }`. -/
def countedAsFail (o : Int) : Bool :=
  o < 0

/-! ## Connection controller: drained-loop counters -/

/-- Embedding of the `startConnectionController` goroutine loop, run to the
quiescent state: each iteration first increments `insertions`, then receives
one outcome from the callback channel and updates `fails`; once the channel is
exhausted the loop still performs the leading increment of the next iteration
before blocking on the empty channel.  Returns the `(insertions, fails)` pair
visible in that drained state. -/
def controllerDrained : List Int → Nat → Nat → Nat × Nat
  | [], ins, fl => (ins + 1, fl)
  | o :: rest, ins, fl =>
      controllerDrained rest (ins + 1) (if o < 0 then fl + 1 else fl)

/-! ## Read loop of `main` -/

/-- One result of `reader.Read()`: end of stream, a parse error, or a record. -/
inductive ReadEvent where
  | eof : ReadEvent
  | fail : String → ReadEvent
  | row : List String → ReadEvent
  deriving DecidableEq, Repr

/-- How a run ends: `log.Fatal` on a parse error (non-zero exit, no final
report), or normal loop exit at EOF followed by the final statistics report
over the dispatched tasks. -/
inductive RunOutcome where
  | fatalExit : String → RunOutcome
  | finalReport : Nat → RunOutcome
  deriving DecidableEq, Repr

/-- Embedding of the read loop of `main`: `io.EOF` breaks the loop and the
final report is printed; any other read error hits `log.Fatal`; the first
record is the header (consumed by `parseColumns`), every further record
dispatches one task.  The boolean is `isFirstRow`; the counter is the number
of tasks dispatched so far.  A stream that never yields EOF or an error keeps
the loop blocked, modelled as `none`. -/
def readLoop : List ReadEvent → Bool → Nat → Option RunOutcome
  | [], _, _ => none
  | ReadEvent.eof :: _, _, n => some (RunOutcome.finalReport n)
  | ReadEvent.fail m :: _, _, _ => some (RunOutcome.fatalExit m)
  | ReadEvent.row _ :: rest, true, n => readLoop rest false n
  | ReadEvent.row _ :: rest, false, n => readLoop rest false (n + 1)

/-! ## Pipeline transition system

The producer loop of `main`, the `insert` workers and the
`startConnectionController` goroutine, as a labelled transition system.  The
`available` channel is the token count, `connections` is the in-flight count,
`running` holds the ids of dispatched workers that have not yet sent their
outcome, and `callback` is the FIFO outcome channel. -/

/-- Shared state of the pipeline: the channels and counters of `main`. -/
structure PipeState where
  /-- Number of `true` tokens buffered in the `available` channel. -/
  tokens : Nat
  /-- The `connections` counter: admitted tasks not yet accounted for. -/
  inFlight : Nat
  /-- Number of tasks dispatched so far by the producer loop. -/
  dispatched : Nat
  /-- Ids of dispatched workers whose outcome has not been sent yet. -/
  running : List Int
  /-- Contents of the `callback` channel (FIFO). -/
  callback : List Int
  /-- The `insertions` counter. -/
  insertions : Nat
  /-- The `fails` counter. -/
  fails : Nat
  /-- Number of `available <- true` releases performed by the controller. -/
  released : Nat
  /-- Whether the controller has already executed the `insertions += 1` at the
  top of its current loop iteration and is now at the channel receive. -/
  preIncremented : Bool
  deriving DecidableEq, Repr

/-- Initial state of `main`: `available` filled with `N` tokens, all counters
zero, the controller goroutine at the top of its loop. -/
def initState (maxConns : Nat) : PipeState :=
  ⟨maxConns, 0, 0, [], [], 0, 0, 0, false⟩

/-- Which concurrent activity performs a step. -/
inductive Agent where
  | producer : Agent
  | worker : Agent
  | controller : Agent
  deriving DecidableEq, Repr

/-- One step of the pipeline (`tsvToMYSQLTiDB.go` semantics), labelled by the
activity that performs it.
* `dispatch`: the producer receives a token from `available`, increments
  `connections`, increments `id` and launches a worker;
* `send`: a running worker finishes its store call and sends its outcome
  (its id, negated on failure) on `callback`;
* `collectIncr`: the controller executes the `insertions += 1` at the top of
  its loop iteration, before receiving from `callback`;
* `collectRecv`: the controller receives one outcome from `callback`,
  increments `fails` if it is negative, decrements `connections`, and sends a
  fresh token on `available`. -/
inductive Step : Agent → PipeState → PipeState → Prop
  | dispatch (s : PipeState) (t : Nat) (h : s.tokens = t + 1) :
      Step Agent.producer s
        { s with tokens := t, inFlight := s.inFlight + 1,
                 dispatched := s.dispatched + 1,
                 running := ((s.dispatched : Int) + 2) :: s.running }
  | send (s : PipeState) (id : Int) (ok : Bool) (h : id ∈ s.running) :
      Step Agent.worker s
        { s with running := s.running.erase id,
                 callback := s.callback ++ [if ok then id else -id] }
  | collectIncr (s : PipeState) (h : s.preIncremented = false) :
      Step Agent.controller s
        { s with insertions := s.insertions + 1, preIncremented := true }
  | collectRecv (s : PipeState) (o : Int) (rest : List Int)
      (h : s.preIncremented = true) (hc : s.callback = o :: rest) :
      Step Agent.controller s
        { s with callback := rest,
                 fails := s.fails + (if o < 0 then 1 else 0),
                 inFlight := s.inFlight - 1,
                 tokens := s.tokens + 1,
                 released := s.released + 1,
                 preIncremented := false }

/-- States reachable from the initial state with `N` connection tokens. -/
inductive Reachable (maxConns : Nat) : PipeState → Prop
  | init : Reachable maxConns (initState maxConns)
  | step {s s' : PipeState} (a : Agent) :
      Reachable maxConns s → Step a s s' → Reachable maxConns s'

/-- Joint inductive invariant of the pipeline. -/
def PipeInv (maxConns : Nat) (s : PipeState) : Prop :=
  s.tokens + s.inFlight = maxConns ∧
  s.inFlight = s.running.length + s.callback.length ∧
  s.released + s.inFlight = s.dispatched ∧
  s.insertions = s.released + (if s.preIncremented then 1 else 0)

theorem pipeInv_init (maxConns : Nat) : PipeInv maxConns (initState maxConns) := by
  refine ⟨?_, ?_, ?_, ?_⟩ <;> simp [initState]

theorem pipeInv_step {maxConns : Nat} {a : Agent} {s s' : PipeState}
    (hinv : PipeInv maxConns s) (hstep : Step a s s') : PipeInv maxConns s' := by
  obtain ⟨h1, h2, h3, h4⟩ := hinv
  cases hstep with
  | dispatch s t h =>
      refine ⟨?_, ?_, ?_, ?_⟩ <;> simp_all <;> omega
  | send s id ok h =>
      have hlen : (s.running.erase id).length = s.running.length - 1 :=
        List.length_erase_of_mem h
      have hpos : 0 < s.running.length := List.length_pos.mpr (by
        intro hnil; rw [hnil] at h; exact (List.not_mem_nil id) h)
      refine ⟨by simpa using h1, ?_, by simpa using h3, by simpa using h4⟩
      simp [hlen, List.length_append]
      omega
  | collectIncr s h =>
      refine ⟨by simpa using h1, by simpa using h2, by simpa using h3, ?_⟩
      simp_all
  | collectRecv s o rest h hc =>
      have hcb : s.callback.length = rest.length + 1 := by simp [hc]
      refine ⟨?_, ?_, ?_, ?_⟩ <;> simp_all <;> omega

theorem pipeInv_reachable {maxConns : Nat} {s : PipeState}
    (h : Reachable maxConns s) : PipeInv maxConns s := by
  induction h with
  | init => exact pipeInv_init maxConns
  | step a _ hstep ih => exact pipeInv_step ih hstep

/-! ## Statement-builder lemmas -/

theorem parseColumnsLoop_false (cs : List String) :
    ∀ q p, parseColumnsLoop cs false q p = (q ++ sepCols cs, p ++ sepPh cs) := by
  induction cs with
  | nil => intro q p; simp [parseColumnsLoop, sepCols, sepPh, String.append_empty]
  | cons c rest ih =>
      intro q p
      simp [parseColumnsLoop, sepCols, sepPh, ih, String.append_assoc]

theorem parseColumnsLoopUpd_false (cs : List String) :
    ∀ q p u, parseColumnsLoopUpd cs false q p u =
      (q ++ sepCols cs, p ++ sepPh cs, u ++ sepUpd cs) := by
  induction cs with
  | nil =>
      intro q p u
      simp [parseColumnsLoopUpd, sepCols, sepPh, sepUpd, String.append_empty]
  | cons c rest ih =>
      intro q p u
      simp [parseColumnsLoopUpd, sepCols, sepPh, sepUpd, ih, String.append_assoc]

theorem colList_cons (c : String) (cs : List String) :
    colList (c :: cs) = c ++ sepCols cs := by
  induction cs generalizing c with
  | nil => simp [colList, sepCols, String.append_empty]
  | cons d ds ih => simp [colList, sepCols, ih, String.append_assoc]

theorem placeholderList_cons (c : String) (cs : List String) :
    placeholderList (c :: cs) = "?" ++ sepPh cs := by
  induction cs generalizing c with
  | nil => simp [placeholderList, sepPh, String.append_empty]
  | cons d ds ih =>
      simp [placeholderList, sepPh, ih, String.append_assoc]
      rw [show ("?, " : String) = "?" ++ ", " from rfl,
        show (", ?" : String) = ", " ++ "?" from rfl,
        String.append_assoc, String.append_assoc]

theorem updateList_cons (c : String) (cs : List String) :
    updateList (c :: cs) = c ++ "=VALUES(" ++ c ++ ")" ++ sepUpd cs := by
  induction cs generalizing c with
  | nil => simp [updateList, sepUpd, String.append_empty]
  | cons d ds ih =>
      simp [updateList, sepUpd, ih, String.append_assoc]
      rw [show ("), " : String) = ")" ++ ", " from rfl, String.append_assoc]

theorem parseColumns_eq (t : String) (cols : List String) :
    parseColumns t cols =
      "INSERT INTO " ++ t ++ " (" ++ colList cols ++ ") " ++
        ("VALUES (" ++ placeholderList cols ++ ")") := by
  cases cols with
  | nil =>
      simp [parseColumns, parseColumnsLoop, colList, placeholderList,
        String.append_empty]
  | cons c cs =>
      simp [parseColumns, parseColumnsLoop, parseColumnsLoop_false,
        colList_cons, placeholderList_cons, String.append_assoc]
      rw [show ("VALUES (?" : String) = "VALUES (" ++ "?" from rfl,
        String.append_assoc]

theorem parseColumnsUpd_false_eq (t : String) (cols : List String) :
    parseColumnsUpd t false cols = parseColumns t cols := by
  cases cols with
  | nil => simp [parseColumnsUpd, parseColumns, parseColumnsLoopUpd, parseColumnsLoop]
  | cons c cs =>
      simp [parseColumnsUpd, parseColumns, parseColumnsLoopUpd, parseColumnsLoop,
        parseColumnsLoopUpd_false, parseColumnsLoop_false]

theorem parseColumnsUpd_true_eq (t : String) (cols : List String) :
    parseColumnsUpd t true cols =
      parseColumns t cols ++ ("ON DUPLICATE KEY UPDATE " ++ updateList cols) := by
  cases cols with
  | nil =>
      simp [parseColumnsUpd, parseColumns, parseColumnsLoopUpd, parseColumnsLoop,
        updateList, String.append_empty]
  | cons c cs =>
      simp [parseColumnsUpd, parseColumns, parseColumnsLoopUpd, parseColumnsLoop,
        parseColumnsLoopUpd_false, parseColumnsLoop_false, updateList_cons,
        String.append_assoc]

/-! ## Claim theorems -/

/-- C6: for every input record, the argument-list conversion preserves the
number (and hence order) of fields, and maps a field whose text is exactly
`NULL` to a null value while passing every other field text (including the
empty string) through unchanged at its position. -/
theorem repalceNULLByDEFAULT_spec (s : List String) :
    (repalceNULLByDEFAULT s).length = s.length ∧
    ∀ (k : Nat) (v : String), s[k]? = some v →
      (repalceNULLByDEFAULT s)[k]? =
        some (if v = "NULL" then SqlArg.null else SqlArg.str v) := by
  constructor
  · simp [repalceNULLByDEFAULT]
  · intro k v hv
    simp [repalceNULLByDEFAULT, List.getElem?_map, hv]

/-- Witness for `repalceNULLByDEFAULT_spec`: on the record
`["a", "NULL", ""]` the conversion keeps three fields, turns the second into
a null value, and passes the empty third field through unchanged. -/
theorem repalceNULLByDEFAULT_spec_witness :
    (repalceNULLByDEFAULT ["a", "NULL", ""]).length = 3 ∧
    (repalceNULLByDEFAULT ["a", "NULL", ""])[1]? = some SqlArg.null ∧
    (repalceNULLByDEFAULT ["a", "NULL", ""])[2]? = some (SqlArg.str "") := by
  refine ⟨(repalceNULLByDEFAULT_spec ["a", "NULL", ""]).1, ?_, ?_⟩
  · exact (repalceNULLByDEFAULT_spec ["a", "NULL", ""]).2 1 "NULL" (by decide)
  · exact (repalceNULLByDEFAULT_spec ["a", "NULL", ""]).2 2 "" (by decide)

/-- C7: the statement builder names every header column in order and emits one
positional placeholder per column; for the header `(id, name, score)` without
upsert it produces exactly
`INSERT INTO t (id, name, score) VALUES (?, ?, ?)`. -/
theorem parseColumns_names_all_columns :
    (∀ (t : String) (cols : List String),
       parseColumns t cols =
         "INSERT INTO " ++ t ++ " (" ++ colList cols ++ ") " ++
           ("VALUES (" ++ placeholderList cols ++ ")")) ∧
    parseColumns "t" ["id", "name", "score"] =
      "INSERT INTO t (id, name, score) VALUES (?, ?, ?)" :=
  ⟨parseColumns_eq, rfl⟩

/-- C8: with the upsert option enabled the built statement is the plain
insertion statement followed by an `ON DUPLICATE KEY UPDATE` clause that sets
every header column to its newly inserted value (`c=VALUES(c)`, in header
order); with the option disabled the statement is exactly the plain insertion
statement, with no update clause. -/
theorem parseColumnsUpd_upsert_clause :
    (∀ (t : String) (cols : List String),
       parseColumnsUpd t true cols =
         parseColumns t cols ++ ("ON DUPLICATE KEY UPDATE " ++ updateList cols) ∧
       parseColumnsUpd t false cols = parseColumns t cols) ∧
    parseColumnsUpd "t" true ["id", "name", "score"] =
      "INSERT INTO t (id, name, score) VALUES (?, ?, ?)" ++
        "ON DUPLICATE KEY UPDATE id=VALUES(id), name=VALUES(name), score=VALUES(score)" :=
  ⟨fun t cols => ⟨parseColumnsUpd_true_eq t cols, parseColumnsUpd_false_eq t cols⟩, rfl⟩

/-- C10: the delimiter option handling reads only the first character of the
option value (any further characters are ignored), and on an empty option
value the indexing has no result — the Go expression
`[]rune(*delimiter)[0]` panics, modelled as `none`. -/
theorem delimiterOfOption_first_char :
    (∀ (c : Char) (rest : List Char),
       delimiterOfOption (String.mk (c :: rest)) = some c) ∧
    delimiterOfOption "" = none := by
  constructor
  · intro c rest; rfl
  · rfl

/-- C3 counterexample: the `part_000` variant assigns sequence number 0 to its
first dispatched task, and a failed task with sequence number 0 sends outcome
`-0 = 0`, which the connection controller's `id < 0` test does not count as a
failure — the success/failure encoding is not distinguishable at 0. -/
theorem outcomeSign_zero_ambiguous :
    idOfTaskV2 0 = 0 ∧
    countedAsFail (outcomeValue (idOfTaskV2 0) false) = false ∧
    countedAsFail (outcomeValue (idOfTaskV2 0) true) = false := by
  decide

/-- C3 amended: in `tsvToMYSQLTiDB.go` sequence numbers start at 2, so the
sign encoding distinguishes failure from success for every assigned sequence
number; in the `part_000` variant the encoding distinguishes them for every
task after the first (sequence numbers start at 0, and the failure of the
task numbered 0 is not counted). -/
theorem outcomeSign_distinguishable (k : Nat) :
    (countedAsFail (outcomeValue (idOfTaskV1 k) false) = true ∧
     countedAsFail (outcomeValue (idOfTaskV1 k) true) = false) ∧
    countedAsFail (outcomeValue (idOfTaskV2 k) true) = false ∧
    (0 < k → countedAsFail (outcomeValue (idOfTaskV2 k) false) = true) := by
  refine ⟨⟨?_, ?_⟩, ?_, ?_⟩ <;>
    simp [countedAsFail, outcomeValue, idOfTaskV1, idOfTaskV2] <;> omega

/-- Witness for `outcomeSign_distinguishable` at the task index 1. -/
theorem outcomeSign_distinguishable_witness :
    countedAsFail (outcomeValue (idOfTaskV1 1) false) = true ∧
    countedAsFail (outcomeValue (idOfTaskV2 1) false) = true :=
  ⟨(outcomeSign_distinguishable 1).1.1,
   (outcomeSign_distinguishable 1).2.2 (by decide)⟩

/-- C4 counterexample: a per-record store failure during `db.Prepare` hits
`log.Fatal` and aborts the whole run, contradicting the claim that no
per-record insertion failure of any kind aborts the pipeline. -/
theorem prepareFailure_aborts :
    insertWorker 2 false true = WorkerEffect.fatalAbort := by
  decide

/-- C4 amended: a store failure during statement execution is logged with the
task's sequence number, reported as a failure outcome (the negated sequence
number) and does not abort the run, while a success reports the sequence
number itself; a store failure during the per-task statement preparation,
however, is fatal and aborts the run. -/
theorem insertWorker_failure_policy (id : Int) :
    insertWorker id true false = WorkerEffect.sent (-id) ∧
    insertWorker id true true = WorkerEffect.sent id ∧
    ∀ execOk : Bool, insertWorker id false execOk = WorkerEffect.fatalAbort := by
  refine ⟨rfl, rfl, fun execOk => rfl⟩

/-- C5: a malformed record at any position in the stream (after any prefix of
well-formed records) makes the read loop call `log.Fatal` — the run ends with
the fatal diagnostic and no final statistics report — while end-of-stream
exits the read loop normally and yields the final report. -/
theorem readLoop_fatal_on_malformed :
    (∀ (pre : List ReadEvent), (∀ e ∈ pre, ∃ f, e = ReadEvent.row f) →
       ∀ (m : String) (rest : List ReadEvent) (firstRow : Bool) (n : Nat),
         readLoop (pre ++ ReadEvent.fail m :: rest) firstRow n =
           some (RunOutcome.fatalExit m)) ∧
    (∀ (rest : List ReadEvent) (firstRow : Bool) (n : Nat),
       readLoop (ReadEvent.eof :: rest) firstRow n =
         some (RunOutcome.finalReport n)) := by
  constructor
  · intro pre hpre
    induction pre with
    | nil => intro m rest firstRow n; simp [readLoop]
    | cons e pre ih =>
        intro m rest firstRow n
        obtain ⟨f, rfl⟩ := hpre e (List.mem_cons_self e pre)
        have htail : ∀ e ∈ pre, ∃ f, e = ReadEvent.row f := fun e he =>
          hpre e (List.mem_cons_of_mem _ he)
        cases firstRow <;> simpa [readLoop] using ih htail m rest _ _
  · intro rest firstRow n
    cases firstRow <;> rfl

/-- Witness for `readLoop_fatal_on_malformed`: the spec scenario — a header,
two valid data lines, then a malformed third data line — terminates with the
fatal diagnostic and no final report. -/
theorem readLoop_fatal_on_malformed_witness :
    readLoop
      [ReadEvent.row ["id", "name"], ReadEvent.row ["1", "Alice"],
       ReadEvent.row ["2", "Bob"], ReadEvent.fail "wrong number of fields"]
      true 0 = some (RunOutcome.fatalExit "wrong number of fields") :=
  readLoop_fatal_on_malformed.1
    [ReadEvent.row ["id", "name"], ReadEvent.row ["1", "Alice"],
     ReadEvent.row ["2", "Bob"]]
    (by intro e he; fin_cases he <;> exact ⟨_, rfl⟩)
    "wrong number of fields" [] true 0

/-- C1: the connection controller increments `insertions` at the top of each
loop iteration, before receiving an outcome from the callback channel, so in
the quiescent drained state (all outcomes consumed, controller blocked on the
empty channel) the counter reads one more than the number of outcomes — i.e.
`dispatched + 1`, not `dispatched` as the claimed invariant states.  The
count is independent of how many outcomes were failures.  At the failing
input of two dispatched tasks (outcomes `[2, 3]`, both successful) the
drained counter reads 3. -/
theorem controllerDrained_overcounts :
    (∀ (outs : List Int) (ins fl : Nat),
       (controllerDrained outs ins fl).1 = ins + outs.length + 1) ∧
    controllerDrained [2, 3] 0 0 = (3, 0) ∧
    controllerDrained [-2, 3] 0 0 = (3, 1) := by
  refine ⟨?_, by decide, by decide⟩
  intro outs
  induction outs with
  | nil => intro ins fl; simp [controllerDrained]
  | cons o rest ih =>
      intro ins fl
      simp [controllerDrained, ih]
      omega

/-- C2: in every reachable state of the pipeline the number of tasks in
flight (admitted but not yet accounted for — the `connections` counter) never
exceeds the configured maximum concurrency, because the producer can only
dispatch after receiving a token from the `available` channel; the number of
outstanding workers plus undelivered outcomes is bounded the same way. -/
theorem inFlight_le_maxConns (maxConns : Nat) (s : PipeState)
    (h : Reachable maxConns s) :
    s.inFlight ≤ maxConns ∧ s.running.length + s.callback.length ≤ maxConns := by
  obtain ⟨h1, h2, h3, h4⟩ := pipeInv_reachable h
  omega

/-- Witness for `inFlight_le_maxConns`: with two tokens, the state after one
dispatch has one task in flight, within the bound. -/
theorem inFlight_le_maxConns_witness :
    (PipeState.mk 1 1 1 [2] [] 0 0 0 false).inFlight ≤ 2 :=
  (inFlight_le_maxConns 2 _
    (Reachable.step Agent.producer Reachable.init
      (Step.dispatch (initState 2) 1 rfl))).1

/-- C9: in every reachable state, tokens released plus tasks in flight equal
tasks dispatched — every accounted outcome corresponds to exactly one
returned token; moreover no producer or worker step ever changes the release
count, and any step that changes it is a controller receive step that returns
exactly one token after the outcome has been recorded in the shared counters
(the `insertions` increment of the iteration has already happened and the
`fails` update for the received outcome occurs with the release). -/
theorem release_once_by_controller (maxConns : Nat) (s : PipeState)
    (h : Reachable maxConns s) :
    s.released + s.inFlight = s.dispatched ∧
    ∀ (a : Agent) (s' : PipeState), Step a s s' →
      ((a = Agent.producer ∨ a = Agent.worker) → s'.released = s.released) ∧
      (s'.released ≠ s.released →
        a = Agent.controller ∧
        s'.released = s.released + 1 ∧
        s'.tokens = s.tokens + 1 ∧
        s.preIncremented = true ∧
        s.insertions = s.released + 1 ∧
        ∃ o rest, s.callback = o :: rest ∧ s'.callback = rest ∧
          s'.fails = s.fails + (if o < 0 then 1 else 0)) := by
  obtain ⟨h1, h2, h3, h4⟩ := pipeInv_reachable h
  refine ⟨h3, ?_⟩
  intro a s' hstep
  cases hstep with
  | dispatch s t ht => exact ⟨fun _ => rfl, fun hne => absurd rfl hne⟩
  | send s id ok hm => exact ⟨fun _ => rfl, fun hne => absurd rfl hne⟩
  | collectIncr s hpre => exact ⟨fun _ => rfl, fun hne => absurd rfl hne⟩
  | collectRecv s o rest hpre hc =>
      refine ⟨fun hcase => ?_, fun _ => ⟨rfl, rfl, rfl, hpre, ?_, o, rest, hc, rfl, rfl⟩⟩
      · rcases hcase with hh | hh <;> exact absurd hh (by decide)
      · rw [hpre] at h4
        simpa using h4

/-- Witness for `release_once_by_controller`: a one-token pipeline after a
dispatch, a failing worker's send, and the controller's leading increment;
the controller's receive step then returns exactly one token. -/
theorem release_once_by_controller_witness :
    (PipeState.mk 0 1 1 [] [-2] 1 0 0 true).released +
        (PipeState.mk 0 1 1 [] [-2] 1 0 0 true).inFlight =
      (PipeState.mk 0 1 1 [] [-2] 1 0 0 true).dispatched ∧
    (PipeState.mk 1 0 1 [] [] 1 1 1 false).released =
      (PipeState.mk 0 1 1 [] [-2] 1 0 0 true).released + 1 := by
  have hreach : Reachable 1 (PipeState.mk 0 1 1 [] [-2] 1 0 0 true) :=
    Reachable.step Agent.controller
      (Reachable.step Agent.worker
        (Reachable.step Agent.producer Reachable.init
          (Step.dispatch (initState 1) 0 rfl))
        (Step.send _ 2 false (by decide)))
      (Step.collectIncr _ rfl)
  have h := release_once_by_controller 1 _ hreach
  have hstep : Step Agent.controller (PipeState.mk 0 1 1 [] [-2] 1 0 0 true)
      (PipeState.mk 1 0 1 [] [] 1 1 1 false) := by
    exact Step.collectRecv (PipeState.mk 0 1 1 [] [-2] 1 0 0 true) (-2) [] rfl rfl
  exact ⟨h.1, ((h.2 Agent.controller _ hstep).2 (by decide)).2.1⟩

end TsvLoader
